import Mathlib

/-!
# Verification of the SUNDIALS ManyVector demo (imex_chem_hydro)

Shallow embedding, over exact rationals, of the parts of the
`sundials-manyvector-demo` repository that the frozen claims are about:

* the custom block-diagonal distributed linear solver `Solve_BDMPIMV` and its
  matrix-free product `ATimes_BDMPIMV` (src/imex_chem_hydro_main.cpp);
* the Dengo/cvklu primordial chemistry network: temperature Newton solve,
  log-temperature rate-table interpolation, species right-hand sides
  (raja_primordial_network implementation file);
* the implicit right-hand-side callback `fimpl`;
* the pre-integration configuration checks of `main`;
* the smoke-test problem definition (compile_test.cpp) together with a
  spec-modelled WENO5 flux evaluator (the flux-engine source itself is not
  part of the analysed tree).

Machine floating point is modelled by exact `ℚ` arithmetic; calls into libm
(`log`, `exp`, `pow` with non-integer exponents) and into external library
kernels (the MPI reduction contents, the weighted-norm routine) are modelled
as explicit function parameters, since their implementations live outside
this repository.
-/

/-- C `(int)` cast of a floating value: truncation toward zero. -/
def cIntOfRat (x : ℚ) : ℤ :=
  if 0 ≤ x then ⌊x⌋ else -⌊-x⌋

/-- Clamp `x` to the closed interval `[lo, hi]`, written the way the C sources
write it (`if (x < lo) x = lo; else if (x > hi) x = hi;`). -/
def clampQ (lo hi x : ℚ) : ℚ :=
  if x < lo then lo else if x > hi then hi else x

/-! ## MPI minimum reduction

`MPI_Allreduce(..., MPI_MIN, ...)` delivers, on every rank, the minimum of
the contributed values over all ranks.  We model the collection of per-rank
contributions as a list and the reduction as a fold with `min`. -/

/-- Result of `MPI_Allreduce` with `MPI_MIN` over one `int` slot: the minimum
of all ranks' contributions (the list is never empty in a real run). -/
def mpiAllreduceMin : List ℤ → ℤ
  | [] => 0
  | x :: xs => xs.foldl min x

/-- The corresponding maximum, used to phrase the solver's return value. -/
def listMaxInt : List ℤ → ℤ
  | [] => 0
  | x :: xs => xs.foldl max x

/-! ## Solve_BDMPIMV (src/imex_chem_hydro_main.cpp, lines 1305-1349)

Each rank calls the local block solve `SUNLinSolSolve` and obtains a local
status `ierr`.  It then packs `ierrs = {ierr, -ierr}` and performs a single
`MPI_Allreduce(MPI_MIN)` of both slots; writing `g0 = min_ranks ierr` and
`g1 = min_ranks (-ierr)`, each rank returns `g0` if `g0 < 0`, and `-g1`
(that is, `max_ranks ierr`) otherwise.  We model the per-rank return value
as a function of the rank id and the list of all ranks' local statuses; the
early `SUNLS_MEM_FAIL` return for a missing subvector (a memory fault, not
a linear-solve status) is outside the claim and not modelled. -/
def Solve_BDMPIMV (rank : ℕ) (ierrs : List ℤ) : ℤ :=
  let globerr0 := mpiAllreduceMin ierrs
  let globerr1 := mpiAllreduceMin (ierrs.map (fun e => -e))
  if globerr0 < 0 then globerr0 else -globerr1

/-! ## The cvklu chemistry network (raja_primordial_network implementation)

The network has `NSPECIES = 10` unknowns per cell, stored flattened as
`ydata[i*10 + s]` for cell `i` and species
`s ∈ {H2_1, H2_2, H_1, H_2, H_m0, He_1, He_2, He_3, de, ge}`.
Rate data lives in `cvklu_data`; the 1024-entry log-temperature tables are
modelled as total functions `ℤ → ℚ` on the bin index, per-cell scratch
arrays as functions `ℕ → ℚ` of the cell (or flattened) index.  libm's
`log` is passed explicitly as `rlog`. -/

/-- The ten per-cell unknowns after multiplication by the `scale` factors
(the `y_arr` locals of `calculate_rhs_cvklu`). -/
structure CellChem where
  H2_1 : ℚ
  H2_2 : ℚ
  H_1 : ℚ
  H_2 : ℚ
  H_m0 : ℚ
  He_1 : ℚ
  He_2 : ℚ
  He_3 : ℚ
  de : ℚ
  ge : ℚ

/-- Reaction/cooling rate data structure (`cvklu_data`): temperature-table
geometry, the tabulated reaction rates `r_k*`, cooling rates `c_*` and
H2 heat-capacity tables `g_*`, the per-species scaling arrays and the
per-cell scratch arrays. -/
structure cvklu_data where
  current_z : ℚ
  bounds0 : ℚ
  bounds1 : ℚ
  nbins : ℤ
  dbin : ℚ
  idbin : ℚ
  r_k01 : ℤ → ℚ
  r_k02 : ℤ → ℚ
  r_k03 : ℤ → ℚ
  r_k04 : ℤ → ℚ
  r_k05 : ℤ → ℚ
  r_k06 : ℤ → ℚ
  r_k07 : ℤ → ℚ
  r_k08 : ℤ → ℚ
  r_k09 : ℤ → ℚ
  r_k10 : ℤ → ℚ
  r_k11 : ℤ → ℚ
  r_k12 : ℤ → ℚ
  r_k13 : ℤ → ℚ
  r_k14 : ℤ → ℚ
  r_k15 : ℤ → ℚ
  r_k16 : ℤ → ℚ
  r_k17 : ℤ → ℚ
  r_k18 : ℤ → ℚ
  r_k19 : ℤ → ℚ
  r_k21 : ℤ → ℚ
  r_k22 : ℤ → ℚ
  c_brem_brem : ℤ → ℚ
  c_ceHeI_ceHeI : ℤ → ℚ
  c_ceHeII_ceHeII : ℤ → ℚ
  c_ceHI_ceHI : ℤ → ℚ
  c_cie_cooling_cieco : ℤ → ℚ
  c_ciHeI_ciHeI : ℤ → ℚ
  c_ciHeII_ciHeII : ℤ → ℚ
  c_ciHeIS_ciHeIS : ℤ → ℚ
  c_ciHI_ciHI : ℤ → ℚ
  c_compton_comp_ : ℤ → ℚ
  c_gloverabel08_gael : ℤ → ℚ
  c_gloverabel08_gaH2 : ℤ → ℚ
  c_gloverabel08_gaHe : ℤ → ℚ
  c_gloverabel08_gaHI : ℤ → ℚ
  c_gloverabel08_gaHp : ℤ → ℚ
  c_gloverabel08_h2lte : ℤ → ℚ
  c_h2formation_h2mcool : ℤ → ℚ
  c_h2formation_h2mheat : ℤ → ℚ
  c_h2formation_ncrd1 : ℤ → ℚ
  c_h2formation_ncrd2 : ℤ → ℚ
  c_h2formation_ncrn : ℤ → ℚ
  c_reHeII1_reHeII1 : ℤ → ℚ
  c_reHeII2_reHeII2 : ℤ → ℚ
  c_reHeIII_reHeIII : ℤ → ℚ
  c_reHII_reHII : ℤ → ℚ
  g_gammaH2_1 : ℤ → ℚ
  g_dgammaH2_1_dT : ℤ → ℚ
  g_gammaH2_2 : ℤ → ℚ
  g_dgammaH2_2_dT : ℤ → ℚ
  scale : ℕ → ℚ
  inv_scale : ℕ → ℚ
  Ts : ℕ → ℚ
  dTs_ge : ℕ → ℚ
  mdensity : ℕ → ℚ
  inv_mdensity : ℕ → ℚ
  cie_optical_depth_approx : ℕ → ℚ
  h2_optical_depth_approx : ℕ → ℚ

/-- Temperature-table bound `bounds[0]` set by `cvklu_setup_data`. -/
def cvklu_setup_bounds0 : ℚ := 1.0

/-- Temperature-table bound `bounds[1]` set by `cvklu_setup_data`. -/
def cvklu_setup_bounds1 : ℚ := 100000.0

/-- Number of table bins set by `cvklu_setup_data` (`1024 - 1`). -/
def cvklu_setup_nbins : ℤ := 1024 - 1

/-- The clamped bin index of the rate-table lookup:
`bin_id = (int)(idbin * (log(Ts) - lb))`, clamped by
`if (bin_id <= 0) bin_id = 0; else if (bin_id >= nbins) bin_id = nbins-1;`. -/
def rate_bin_id (nbins : ℤ) (idbin lb logTs : ℚ) : ℤ :=
  let bin_raw := cIntOfRat (idbin * (logTs - lb))
  if bin_raw ≤ 0 then 0 else if bin_raw ≥ nbins then nbins - 1 else bin_raw

/-- One rate-table lookup with linear interpolation, as performed (for each
of the `r_*`, `c_*` and `g_*` tables) in `calculate_rhs_cvklu` and in the
temperature Newton iteration:
`t1 = lb + bin_id*dbin`, `t2 = lb + (bin_id+1)*dbin`,
`Tdef = (log(Ts) - t1)/(t2 - t1)`, value `tbl[bin_id] + Tdef*(tbl[bin_id+1] - tbl[bin_id])`. -/
def interp_rate (tbl : ℤ → ℚ) (nbins : ℤ) (dbin idbin lb logTs : ℚ) : ℚ :=
  let bin_id := rate_bin_id nbins idbin lb logTs
  let t1 := lb + bin_id * dbin
  let t2 := lb + (bin_id + 1) * dbin
  let Tdef := (logTs - t1) / (t2 - t1)
  tbl bin_id + Tdef * (tbl (bin_id + 1) - tbl bin_id)

/-- One iteration of the temperature Newton loop of
`cvklu_calculate_temperature`: re-interpolate the four `gammaH2` tables at
the current iterate, form the residual derivative `dge_dT` and residual
`dge`, and take the Newton update `Tnew = T - dge/dge_dT`.  The state is
the pair `(Ts, dge_dT)` since the final `dTs_ge` uses the last `dge_dT`. -/
def cvklu_newton_step (data : cvklu_data) (rlog : ℚ → ℚ) (y : CellChem)
    (s : ℚ × ℚ) : ℚ × ℚ :=
  let kb : ℚ := 1.3806504e-16
  let mh : ℚ := 1.67e-24
  let gamma : ℚ := 5 / 3
  let gamma_m1 : ℚ := 1 / (gamma - 1)
  let density : ℚ := 2.0 * y.H2_1 + 2.0 * y.H2_2 + 1.0079400000000001 * y.H_1
    + 1.0079400000000001 * y.H_2 + 1.0079400000000001 * y.H_m0
    + 4.0026020000000004 * y.He_1 + 4.0026020000000004 * y.He_2
    + 4.0026020000000004 * y.He_3
  let Ts := s.1
  let T := Ts
  let lb := rlog data.bounds0
  let gammaH2_2 := interp_rate data.g_gammaH2_2 data.nbins data.dbin data.idbin lb (rlog Ts)
  let dgammaH2_2_dT := interp_rate data.g_dgammaH2_2_dT data.nbins data.dbin data.idbin lb (rlog Ts)
  let gammaH2_1 := interp_rate data.g_gammaH2_1 data.nbins data.dbin data.idbin lb (rlog Ts)
  let dgammaH2_1_dT := interp_rate data.g_dgammaH2_1_dT data.nbins data.dbin data.idbin lb (rlog Ts)
  let gammaH2_1_m1 := 1 / (gammaH2_1 - 1)
  let gammaH2_2_m1 := 1 / (gammaH2_2 - 1)
  let dge_dT := T * kb * (-y.H2_1 * gammaH2_1_m1 * gammaH2_1_m1 * dgammaH2_1_dT
      - y.H2_2 * gammaH2_2_m1 * gammaH2_2_m1 * dgammaH2_2_dT) / (density * mh)
    + kb * (y.H2_1 * gammaH2_1_m1 + y.H2_2 * gammaH2_2_m1 + y.H_1 * gamma_m1
      + y.H_2 * gamma_m1 + y.H_m0 * gamma_m1 + y.He_1 * gamma_m1
      + y.He_2 * gamma_m1 + y.He_3 * gamma_m1 + gamma_m1 * y.de) / (density * mh)
  let dge := T * kb * (y.H2_1 * gammaH2_1_m1 + y.H2_2 * gammaH2_2_m1
      + y.H_1 * gamma_m1 + y.H_2 * gamma_m1 + y.H_m0 * gamma_m1
      + y.He_1 * gamma_m1 + y.He_2 * gamma_m1 + y.He_3 * gamma_m1
      + gamma_m1 * y.de) / (density * mh) - y.ge
  let Tnew := T - dge / dge_dT
  (Tnew, dge_dT)

/-- The `for (int j=0; j<10; j++)` loop of `cvklu_calculate_temperature`,
with the remaining trip count explicit. -/
def cvklu_temperature_loop (data : cvklu_data) (rlog : ℚ → ℚ) (y : CellChem) :
    ℕ → ℚ × ℚ → ℚ × ℚ
  | 0, s => s
  | n + 1, s => cvklu_temperature_loop data rlog y n (cvklu_newton_step data rlog y s)

/-- `cvklu_calculate_temperature`: run the 10-trip Newton loop from the
seed `Ts0` (the stored `data->Ts[i]`), clamp the result into
`[bounds[0], bounds[1]]`, and return `(Ts, dTs_ge, status)` with
`dTs_ge = 1/dge_dT` from the last iteration and status 0. -/
def cvklu_calculate_temperature (data : cvklu_data) (rlog : ℚ → ℚ)
    (y : CellChem) (Ts0 : ℚ) : ℚ × ℚ × ℤ :=
  let s := cvklu_temperature_loop data rlog y 10 (Ts0, 0)
  let Tfin := s.1
  let Tclamped := if Tfin < data.bounds0 then data.bounds0
    else if Tfin > data.bounds1 then data.bounds1 else Tfin
  (Tclamped, 1 / s.2, 0)

/-- The 21 interpolated reaction-rate values `k01 .. k22` of one cell
(the `rs_*` scratch values of `calculate_rhs_cvklu`). -/
structure ReactionRates where
  k01 : ℚ
  k02 : ℚ
  k03 : ℚ
  k04 : ℚ
  k05 : ℚ
  k06 : ℚ
  k07 : ℚ
  k08 : ℚ
  k09 : ℚ
  k10 : ℚ
  k11 : ℚ
  k12 : ℚ
  k13 : ℚ
  k14 : ℚ
  k15 : ℚ
  k16 : ℚ
  k17 : ℚ
  k18 : ℚ
  k19 : ℚ
  k21 : ℚ
  k22 : ℚ

/-- The 25 interpolated cooling-rate values of one cell (the `cs_*`
scratch values of `calculate_rhs_cvklu`). -/
structure CoolingRates where
  brem_brem : ℚ
  ceHeI_ceHeI : ℚ
  ceHeII_ceHeII : ℚ
  ceHI_ceHI : ℚ
  cie_cooling_cieco : ℚ
  ciHeI_ciHeI : ℚ
  ciHeII_ciHeII : ℚ
  ciHeIS_ciHeIS : ℚ
  ciHI_ciHI : ℚ
  compton_comp_ : ℚ
  gloverabel08_gael : ℚ
  gloverabel08_gaH2 : ℚ
  gloverabel08_gaHe : ℚ
  gloverabel08_gaHI : ℚ
  gloverabel08_gaHp : ℚ
  gloverabel08_h2lte : ℚ
  h2formation_h2mcool : ℚ
  h2formation_h2mheat : ℚ
  h2formation_ncrd1 : ℚ
  h2formation_ncrd2 : ℚ
  h2formation_ncrn : ℚ
  reHeII1_reHeII1 : ℚ
  reHeII2_reHeII2 : ℚ
  reHeIII_reHeIII : ℚ
  reHII_reHII : ℚ

/-- Species `H2_1` production/destruction rate (`ydotdata[j]` before the
`inv_scale` multiplication). -/
def ydot_H2_1 (r : ReactionRates) (y : CellChem) : ℚ :=
  r.k08 * y.H_1 * y.H_m0 + r.k10 * y.H2_2 * y.H_1 - r.k11 * y.H2_1 * y.H_2
    - r.k12 * y.H2_1 * y.de - r.k13 * y.H2_1 * y.H_1 + r.k19 * y.H2_2 * y.H_m0
    + r.k21 * y.H2_1 * y.H_1 * y.H_1 + r.k22 * y.H_1 * y.H_1 * y.H_1

/-- Species `H2_2` rate. -/
def ydot_H2_2 (r : ReactionRates) (y : CellChem) : ℚ :=
  r.k09 * y.H_1 * y.H_2 - r.k10 * y.H2_2 * y.H_1 + r.k11 * y.H2_1 * y.H_2
    + r.k17 * y.H_2 * y.H_m0 - r.k18 * y.H2_2 * y.de - r.k19 * y.H2_2 * y.H_m0

/-- Species `H_1` rate. -/
def ydot_H_1 (r : ReactionRates) (y : CellChem) : ℚ :=
  -r.k01 * y.H_1 * y.de + r.k02 * y.H_2 * y.de - r.k07 * y.H_1 * y.de
    - r.k08 * y.H_1 * y.H_m0 - r.k09 * y.H_1 * y.H_2 - r.k10 * y.H2_2 * y.H_1
    + r.k11 * y.H2_1 * y.H_2 + 2 * r.k12 * y.H2_1 * y.de
    + 2 * r.k13 * y.H2_1 * y.H_1 + r.k14 * y.H_m0 * y.de
    + r.k15 * y.H_1 * y.H_m0 + 2 * r.k16 * y.H_2 * y.H_m0
    + 2 * r.k18 * y.H2_2 * y.de + r.k19 * y.H2_2 * y.H_m0
    - 2 * r.k21 * y.H2_1 * y.H_1 * y.H_1 - 2 * r.k22 * y.H_1 * y.H_1 * y.H_1

/-- Species `H_2` rate. -/
def ydot_H_2 (r : ReactionRates) (y : CellChem) : ℚ :=
  r.k01 * y.H_1 * y.de - r.k02 * y.H_2 * y.de - r.k09 * y.H_1 * y.H_2
    + r.k10 * y.H2_2 * y.H_1 - r.k11 * y.H2_1 * y.H_2 - r.k16 * y.H_2 * y.H_m0
    - r.k17 * y.H_2 * y.H_m0

/-- Species `H_m0` rate. -/
def ydot_H_m0 (r : ReactionRates) (y : CellChem) : ℚ :=
  r.k07 * y.H_1 * y.de - r.k08 * y.H_1 * y.H_m0 - r.k14 * y.H_m0 * y.de
    - r.k15 * y.H_1 * y.H_m0 - r.k16 * y.H_2 * y.H_m0 - r.k17 * y.H_2 * y.H_m0
    - r.k19 * y.H2_2 * y.H_m0

/-- Species `He_1` rate. -/
def ydot_He_1 (r : ReactionRates) (y : CellChem) : ℚ :=
  -r.k03 * y.He_1 * y.de + r.k04 * y.He_2 * y.de

/-- Species `He_2` rate. -/
def ydot_He_2 (r : ReactionRates) (y : CellChem) : ℚ :=
  r.k03 * y.He_1 * y.de - r.k04 * y.He_2 * y.de - r.k05 * y.He_2 * y.de
    + r.k06 * y.He_3 * y.de

/-- Species `He_3` rate. -/
def ydot_He_3 (r : ReactionRates) (y : CellChem) : ℚ :=
  r.k05 * y.He_2 * y.de - r.k06 * y.He_3 * y.de

/-- Electron (`de`) rate. -/
def ydot_de (r : ReactionRates) (y : CellChem) : ℚ :=
  r.k01 * y.H_1 * y.de - r.k02 * y.H_2 * y.de + r.k03 * y.He_1 * y.de
    - r.k04 * y.He_2 * y.de + r.k05 * y.He_2 * y.de - r.k06 * y.He_3 * y.de
    - r.k07 * y.H_1 * y.de + r.k08 * y.H_1 * y.H_m0 + r.k14 * y.H_m0 * y.de
    + r.k15 * y.H_1 * y.H_m0 + r.k17 * y.H_2 * y.H_m0 - r.k18 * y.H2_2 * y.de

/-- Gas-energy (`ge`) rate: heating minus radiative cooling with
optical-depth correction factors (before the `inv_scale` and
`inv_mdensity` multiplications). -/
def ydot_ge (c : CoolingRates) (y : CellChem)
    (T z mdensity h2_optical_depth_approx cie_optical_depth_approx : ℚ) : ℚ :=
  -2.0158800000000001 * y.H2_1 * c.cie_cooling_cieco * cie_optical_depth_approx * mdensity
    - y.H2_1 * cie_optical_depth_approx * c.gloverabel08_h2lte * h2_optical_depth_approx
      / (c.gloverabel08_h2lte / (y.H2_1 * c.gloverabel08_gaH2 + y.H_1 * c.gloverabel08_gaHI
          + y.H_2 * c.gloverabel08_gaHp + y.He_1 * c.gloverabel08_gaHe
          + y.de * c.gloverabel08_gael) + 1.0)
    - y.H_1 * c.ceHI_ceHI * cie_optical_depth_approx * y.de
    - y.H_1 * c.ciHI_ciHI * cie_optical_depth_approx * y.de
    - y.H_2 * cie_optical_depth_approx * y.de * c.reHII_reHII
    - y.He_1 * c.ciHeI_ciHeI * cie_optical_depth_approx * y.de
    - y.He_2 * c.ceHeII_ceHeII * cie_optical_depth_approx * y.de
    - y.He_2 * c.ceHeI_ceHeI * cie_optical_depth_approx * y.de ^ 2
    - y.He_2 * c.ciHeII_ciHeII * cie_optical_depth_approx * y.de
    - y.He_2 * c.ciHeIS_ciHeIS * cie_optical_depth_approx * y.de ^ 2
    - y.He_2 * cie_optical_depth_approx * y.de * c.reHeII1_reHeII1
    - y.He_2 * cie_optical_depth_approx * y.de * c.reHeII2_reHeII2
    - y.He_3 * cie_optical_depth_approx * y.de * c.reHeIII_reHeIII
    - c.brem_brem * cie_optical_depth_approx * y.de * (y.H_2 + y.He_2 + 4.0 * y.He_3)
    - cie_optical_depth_approx * c.compton_comp_ * y.de * (z + 1.0) ^ 4 * (T - 2.73 * z - 2.73)
    + 0.5 * 1.0 / (c.h2formation_ncrn / (y.H2_1 * c.h2formation_ncrd2
        + y.H_1 * c.h2formation_ncrd1) + 1.0)
      * (-y.H2_1 * y.H_1 * c.h2formation_h2mcool + y.H_1 ^ 3 * c.h2formation_h2mheat)

/-- The scaled per-cell unknowns `y_arr[k] = ydata[i*10+k] * scale[i*10+k]`
read at the top of the cell loop of `calculate_rhs_cvklu`. -/
def cvklu_cell_y (data : cvklu_data) (ydata : ℕ → ℚ) (i : ℕ) : CellChem :=
  { H2_1 := ydata (i * 10) * data.scale (i * 10)
  , H2_2 := ydata (i * 10 + 1) * data.scale (i * 10 + 1)
  , H_1 := ydata (i * 10 + 2) * data.scale (i * 10 + 2)
  , H_2 := ydata (i * 10 + 3) * data.scale (i * 10 + 3)
  , H_m0 := ydata (i * 10 + 4) * data.scale (i * 10 + 4)
  , He_1 := ydata (i * 10 + 5) * data.scale (i * 10 + 5)
  , He_2 := ydata (i * 10 + 6) * data.scale (i * 10 + 6)
  , He_3 := ydata (i * 10 + 7) * data.scale (i * 10 + 7)
  , de := ydata (i * 10 + 8) * data.scale (i * 10 + 8)
  , ge := ydata (i * 10 + 9) * data.scale (i * 10 + 9) }

/-- The 21 reaction rates interpolated at the cell temperature `T`
(the `rs_*` assignments of `calculate_rhs_cvklu`). -/
def cvklu_cell_rates (data : cvklu_data) (rlog : ℚ → ℚ) (T : ℚ) : ReactionRates :=
  let lb := rlog data.bounds0
  let ip := fun tbl => interp_rate tbl data.nbins data.dbin data.idbin lb (rlog T)
  { k01 := ip data.r_k01, k02 := ip data.r_k02, k03 := ip data.r_k03
  , k04 := ip data.r_k04, k05 := ip data.r_k05, k06 := ip data.r_k06
  , k07 := ip data.r_k07, k08 := ip data.r_k08, k09 := ip data.r_k09
  , k10 := ip data.r_k10, k11 := ip data.r_k11, k12 := ip data.r_k12
  , k13 := ip data.r_k13, k14 := ip data.r_k14, k15 := ip data.r_k15
  , k16 := ip data.r_k16, k17 := ip data.r_k17, k18 := ip data.r_k18
  , k19 := ip data.r_k19, k21 := ip data.r_k21, k22 := ip data.r_k22 }

/-- The 25 cooling rates interpolated at the cell temperature `T`
(the `cs_*` assignments of `calculate_rhs_cvklu`). -/
def cvklu_cell_cooling (data : cvklu_data) (rlog : ℚ → ℚ) (T : ℚ) : CoolingRates :=
  let lb := rlog data.bounds0
  let ip := fun tbl => interp_rate tbl data.nbins data.dbin data.idbin lb (rlog T)
  { brem_brem := ip data.c_brem_brem
  , ceHeI_ceHeI := ip data.c_ceHeI_ceHeI
  , ceHeII_ceHeII := ip data.c_ceHeII_ceHeII
  , ceHI_ceHI := ip data.c_ceHI_ceHI
  , cie_cooling_cieco := ip data.c_cie_cooling_cieco
  , ciHeI_ciHeI := ip data.c_ciHeI_ciHeI
  , ciHeII_ciHeII := ip data.c_ciHeII_ciHeII
  , ciHeIS_ciHeIS := ip data.c_ciHeIS_ciHeIS
  , ciHI_ciHI := ip data.c_ciHI_ciHI
  , compton_comp_ := ip data.c_compton_comp_
  , gloverabel08_gael := ip data.c_gloverabel08_gael
  , gloverabel08_gaH2 := ip data.c_gloverabel08_gaH2
  , gloverabel08_gaHe := ip data.c_gloverabel08_gaHe
  , gloverabel08_gaHI := ip data.c_gloverabel08_gaHI
  , gloverabel08_gaHp := ip data.c_gloverabel08_gaHp
  , gloverabel08_h2lte := ip data.c_gloverabel08_h2lte
  , h2formation_h2mcool := ip data.c_h2formation_h2mcool
  , h2formation_h2mheat := ip data.c_h2formation_h2mheat
  , h2formation_ncrd1 := ip data.c_h2formation_ncrd1
  , h2formation_ncrd2 := ip data.c_h2formation_ncrd2
  , h2formation_ncrn := ip data.c_h2formation_ncrn
  , reHeII1_reHeII1 := ip data.c_reHeII1_reHeII1
  , reHeII2_reHeII2 := ip data.c_reHeII2_reHeII2
  , reHeIII_reHeIII := ip data.c_reHeIII_reHeIII
  , reHII_reHII := ip data.c_reHII_reHII }

/-- Output entry `s ∈ {0,…,9}` of cell `i` of `calculate_rhs_cvklu`: the
species rate multiplied by `inv_scale[i*10+s]` (and, for `ge`, also by
`inv_mdensity[i]`).  The temperature is the result of the per-cell Newton
solve seeded with the stored `data->Ts[i]`.  (The writes to the `rs_*`,
`drs_*`, `cs_*`, `dcs_*`, `Ts` and `dTs_ge` scratch arrays, which are
consumed only by the Jacobian routine, are not tracked.) -/
def cvklu_cell_ydot (data : cvklu_data) (rlog : ℚ → ℚ) (ydata : ℕ → ℚ)
    (i : ℕ) : ℕ → ℚ := fun s =>
  let y := cvklu_cell_y data ydata i
  let T := (cvklu_calculate_temperature data rlog y (data.Ts i)).1
  let r := cvklu_cell_rates data rlog T
  let c := cvklu_cell_cooling data rlog T
  match s with
  | 0 => ydot_H2_1 r y * data.inv_scale (i * 10)
  | 1 => ydot_H2_2 r y * data.inv_scale (i * 10 + 1)
  | 2 => ydot_H_1 r y * data.inv_scale (i * 10 + 2)
  | 3 => ydot_H_2 r y * data.inv_scale (i * 10 + 3)
  | 4 => ydot_H_m0 r y * data.inv_scale (i * 10 + 4)
  | 5 => ydot_He_1 r y * data.inv_scale (i * 10 + 5)
  | 6 => ydot_He_2 r y * data.inv_scale (i * 10 + 6)
  | 7 => ydot_He_3 r y * data.inv_scale (i * 10 + 7)
  | 8 => ydot_de r y * data.inv_scale (i * 10 + 8)
  | 9 => ydot_ge c y T data.current_z (data.mdensity i)
      (data.h2_optical_depth_approx i) (data.cie_optical_depth_approx i)
      * data.inv_scale (i * 10 + 9) * data.inv_mdensity i
  | _ => 0

/-- `calculate_rhs_cvklu(t, y, ydot, nstrip, data)`: evaluate every cell of
the strip and return `(ydot, status)`.  On the host path the routine
returns 0 unconditionally — the cell loop contains no error test (the
temperature solve's convergence test is commented out in the source, and no
negativity test of any intermediate quantity exists). -/
def calculate_rhs_cvklu (data : cvklu_data) (rlog : ℚ → ℚ) (nstrip : ℕ)
    (ydata : ℕ → ℚ) : (ℕ → ℚ) × ℤ :=
  (fun n => if n < nstrip * 10 then cvklu_cell_ydot data rlog ydata (n / 10) (n % 10) else 0, 0)

/-- `setting_up_extra_variables(data, nstrip)`: recompute, for every cell of
the strip, the mixture density `mdensity` (the weighted sum of the
species `scale` factors times the hydrogen mass `1.67e-24`), its inverse,
and the two optical-depth correction factors.  The routine returns `void`:
it has no failure path.  libm's `pow` and `exp` are passed explicitly. -/
def setting_up_extra_variables (rpow : ℚ → ℚ → ℚ) (rexp : ℚ → ℚ)
    (data : cvklu_data) (nstrip : ℕ) : cvklu_data :=
  let mdens := fun i => (data.scale (i * 10) * 2.0 + data.scale (i * 10 + 1) * 2.0
    + data.scale (i * 10 + 2) * 1.00794 + data.scale (i * 10 + 3) * 1.00794
    + data.scale (i * 10 + 4) * 1.00794 + data.scale (i * 10 + 5) * 4.002602
    + data.scale (i * 10 + 6) * 4.002602 + data.scale (i * 10 + 7) * 4.002602) * 1.67e-24
  let tau := fun i => max (rpow (mdens i / 3.3e-8) 2.8) 1.0e-5
  { data with
    mdensity := fun i => if i < nstrip then mdens i else data.mdensity i
    inv_mdensity := fun i => if i < nstrip then 1.0 / mdens i else data.inv_mdensity i
    cie_optical_depth_approx := fun i => if i < nstrip then
        min 1.0 ((1.0 - rexp (-(tau i))) / tau i)
      else data.cie_optical_depth_approx i
    h2_optical_depth_approx := fun i => if i < nstrip then
        min 1.0 (rpow (mdens i / 1.34e-14) (-0.45))
      else data.h2_optical_depth_approx i }

/-! ## The implicit RHS callback and the matrix-free product
(src/imex_chem_hydro_main.cpp) -/

/-- The MPIManyVector layout used by the driver: five fluid sub-arrays
(density, three momenta, total energy) and the flattened chemistry block. -/
structure ManyVector where
  rho : ℕ → ℚ
  mx : ℕ → ℚ
  my : ℕ → ℚ
  mz : ℕ → ℚ
  et : ℕ → ℚ
  chem : ℕ → ℚ

/-- `fimpl(t, w, wdot, udata)`: zero the whole output (`N_VConst(ZERO, wdot)`),
evaluate the Dengo RHS on the chemistry sub-vector only, scale it by
`TimeUnits`, and (when the iterative linear solver allocated it) save the
result in `udata->fchemcur` for later `ATimes` calls.  Returns the output
vector, the updated `fchemcur` cache, and the status flag. -/
def fimpl (data : cvklu_data) (rlog : ℚ → ℚ) (nstrip : ℕ) (TimeUnits : ℚ)
    (fchemcur : Option (ℕ → ℚ)) (w : ManyVector) :
    ManyVector × Option (ℕ → ℚ) × ℤ :=
  let wdot0 : ManyVector :=
    { rho := fun _ => 0, mx := fun _ => 0, my := fun _ => 0
    , mz := fun _ => 0, et := fun _ => 0, chem := fun _ => 0 }
  let res := calculate_rhs_cvklu data rlog nstrip w.chem
  if res.2 ≠ 0 then (wdot0, fchemcur, res.2)
  else
    let wchemdot := fun n => TimeUnits * res.1 n
    let fchemcur' := match fchemcur with
      | none => none
      | some _ => some wchemdot
    ({ wdot0 with chem := wchemdot }, fchemcur', 0)

/-- `ATimes_BDMPIMV(A_data, v, z)`: the matrix-free approximation of
`z = (I - gamma*J) v` on the chemistry block.  It sets `sig = 1/||v||` in
the error-weighted norm (`N_VWrmsNorm(v, w)`, an external SUNDIALS kernel
passed here as `wrms`), evaluates the chemistry RHS once, at the perturbed
point `y + sig*v`, scales by `TimeUnits`, forms the divided difference
`(fchem(y+sig*v)*TimeUnits - fchemcur)/sig`, and returns `v - gamma*(...)`. -/
def ATimes_BDMPIMV (data : cvklu_data) (rlog : ℚ → ℚ) (nstrip : ℕ)
    (TimeUnits gamma : ℚ) (wrms : (ℕ → ℚ) → (ℕ → ℚ) → ℚ)
    (y ewt fchemcur v : ℕ → ℚ) : (ℕ → ℚ) × ℤ :=
  let sig := 1 / wrms v ewt
  let w := fun n => sig * v n + 1 * y n
  let res := calculate_rhs_cvklu data rlog nstrip w
  if res.2 ≠ 0 then (res.1, res.2)
  else
    let z1 := fun n => TimeUnits * res.1 n
    let siginv := 1 / sig
    let z2 := fun n => siginv * z1 n + (-siginv) * fchemcur n
    (fun n => 1 * v n + (-gamma) * z2 n, 0)

/-! ## Dengo unit scaling (declared in src/imex_chem_hydro_main.cpp;
definition not part of the analysed tree) -/

/-- Modelled from the spec: the repository's `apply_Dengo_scaling` (declared
in src/imex_chem_hydro_main.cpp but defined in a file that is not part of
the analysed tree) converts the chemistry sub-block between code units and
physical units by an element-wise multiplication with the per-entry
`scale` factor of the rate-data structure. -/
def apply_Dengo_scaling (data : cvklu_data) (wchem : ℕ → ℚ) : ℕ → ℚ :=
  fun n => wchem n * data.scale n

/-- Modelled from the spec: `unapply_Dengo_scaling` is the inverse
operation, an element-wise multiplication with the `inv_scale` factor. -/
def unapply_Dengo_scaling (data : cvklu_data) (wchem : ℕ → ℚ) : ℕ → ℚ :=
  fun n => wchem n * data.inv_scale n

/-! ## Pre-integration configuration checks of main()
(src/imex_chem_hydro_main.cpp, lines 178-218) -/

/-- Reasons for which `main` calls `MPI_Abort` during the option checks that
run after `load_inputs`/`SetupDecomp` and before the integrator is built. -/
inductive AbortReason where
  | fixedStepNeedsHmax : AbortReason
  | htransGEdTout : AbortReason
  | zeroChemSpecies : AbortReason
deriving DecidableEq

/-- The configuration options examined by the checks. -/
structure MainConfig where
  t0 : ℚ
  tf : ℚ
  nout : ℤ
  fixedstep : ℤ
  hmax : ℚ
  htrans : ℚ
  nchem : ℕ

/-- The output interval: `main` replaces `nout` by 1 when `nout <= 0`
(the `NoOutput` branch) and sets `dTout = (tf - t0)/nout`. -/
def main_dTout (cfg : MainConfig) : ℚ :=
  (cfg.tf - cfg.t0) / (if cfg.nout ≤ 0 then (1 : ℤ) else cfg.nout)

/-- The pre-integration checks of `main`, in source order: fixed stepping
requires `hmax > 0`; `htrans >= dTout` is fatal; compiling without chemical
species is fatal.  A `some` result models `MPI_Abort(comm, 1)`, which kills
every process before `ARKStepCreate` is reached, so integration never
starts. -/
def main_config_check (cfg : MainConfig) : Option AbortReason :=
  if cfg.fixedstep ≠ 0 ∧ cfg.hmax ≤ 0 then some AbortReason.fixedStepNeedsHmax
  else if cfg.htrans ≥ main_dTout cfg then some AbortReason.htransGEdTout
  else if cfg.nchem = 0 then some AbortReason.zeroChemSpecies
  else none

/-! ## WENO flux engine (spec-modelled) and the compile_test problem

The finite-volume flux/RHS evaluator itself is not part of the analysed
tree (only its problem-specific collaborators in src/compile_test.cpp are),
so it is modelled from the spec: 5th-order WENO reconstruction with the
classical Jiang-Shu weights, an approximate Riemann flux of
Rusanov/local-Lax-Friedrichs form for the Euler equations with
`p = (gamma-1)(E - rho*|v|^2/2)`, and the per-axis accumulation
`-dF/dx - dG/dy - dH/dz + external_force`.  Cells are indexed over `ℤ` so
every cell of the model has the full 6-cell halo that an interior cell of
any grid has; the wave-speed estimate `lam` of the Riemann solver is kept
abstract. -/

/-- A fluid state: the five conserved components
(density, x/y/z-momentum, total energy). -/
def EulerState : Type := Fin 5 → ℚ

/-- Modelled from the spec: left-biased 5th-order WENO reconstruction of the
interface value at `i+1/2` from the cell averages `(a,b,c,d,e)` of cells
`i-2 .. i+2`, blending three 3rd-order sub-stencils with Jiang-Shu
nonlinear weights `alpha_k = d_k/(eps + beta_k)^2`. -/
def weno5_face (eps a b c d e : ℚ) : ℚ :=
  let q0 := (2 * a - 7 * b + 11 * c) / 6
  let q1 := (-b + 5 * c + 2 * d) / 6
  let q2 := (2 * c + 5 * d - e) / 6
  let beta0 := (13 / 12) * (a - 2 * b + c) ^ 2 + (1 / 4) * (a - 4 * b + 3 * c) ^ 2
  let beta1 := (13 / 12) * (b - 2 * c + d) ^ 2 + (1 / 4) * (b - d) ^ 2
  let beta2 := (13 / 12) * (c - 2 * d + e) ^ 2 + (1 / 4) * (3 * c - 4 * d + e) ^ 2
  let alpha0 := (1 / 10) / (eps + beta0) ^ 2
  let alpha1 := (6 / 10) / (eps + beta1) ^ 2
  let alpha2 := (3 / 10) / (eps + beta2) ^ 2
  (alpha0 * q0 + alpha1 * q1 + alpha2 * q2) / (alpha0 + alpha1 + alpha2)

/-- Modelled from the spec: the fluid pressure
`p = (gamma-1)*(et - (mx^2+my^2+mz^2)/(2*rho))`. -/
def eulerPressure (gamma : ℚ) (u : EulerState) : ℚ :=
  (gamma - 1) * (u 4 - (u 1 * u 1 + u 2 * u 2 + u 3 * u 3) / (2 * u 0))

/-- Modelled from the spec: the Euler flux along one axis (written for the
x-axis; the other axes are the same function applied to the permuted
state). -/
def eulerFlux (gamma : ℚ) (u : EulerState) : EulerState :=
  fun comp =>
    let p := eulerPressure gamma u
    match comp with
    | 0 => u 1
    | 1 => u 1 * u 1 / u 0 + p
    | 2 => u 1 * u 2 / u 0
    | 3 => u 1 * u 3 / u 0
    | 4 => (u 4 + p) * u 1 / u 0

/-- Modelled from the spec: Rusanov/local-Lax-Friedrichs numerical flux for
the interface states `uL, uR`, with the maximal-wave-speed estimate `lam`
kept abstract (it multiplies `uR - uL`, which vanishes for consistent
states). -/
def rusanovFlux (gamma : ℚ) (lam : EulerState → EulerState → ℚ)
    (uL uR : EulerState) : EulerState :=
  fun comp => (eulerFlux gamma uL comp + eulerFlux gamma uR comp) / 2
    - lam uL uR / 2 * (uR comp - uL comp)

/-- Modelled from the spec: the numerical flux through the interface
`i+1/2` of a 1D line of cell states: WENO-reconstruct the left-biased state
from cells `i-2 .. i+2` and the right-biased state from cells `i-1 .. i+3`
(the mirrored stencil), then combine them with the Riemann flux. -/
def wenoInterfaceFlux (gamma eps : ℚ) (lam : EulerState → EulerState → ℚ)
    (line : ℤ → EulerState) (i : ℤ) : EulerState :=
  let uL : EulerState := fun comp =>
    weno5_face eps (line (i - 2) comp) (line (i - 1) comp) (line i comp)
      (line (i + 1) comp) (line (i + 2) comp)
  let uR : EulerState := fun comp =>
    weno5_face eps (line (i + 3) comp) (line (i + 2) comp) (line (i + 1) comp)
      (line i comp) (line (i - 1) comp)
  rusanovFlux gamma lam uL uR

/-- Modelled from the spec: the one-axis flux divergence
`-(F_{i+1/2} - F_{i-1/2})/dx` of the finite-volume RHS. -/
def wenoAxisRHS (gamma eps dx : ℚ) (lam : EulerState → EulerState → ℚ)
    (line : ℤ → EulerState) (i : ℤ) : EulerState :=
  fun comp => -(wenoInterfaceFlux gamma eps lam line i comp
    - wenoInterfaceFlux gamma eps lam line (i - 1) comp) / dx

/-- Modelled from the spec: the full explicit hydrodynamic RHS at cell
`(i,j,k)`: the sum of the three per-axis flux divergences plus the
problem-specific external forcing. -/
def wenoRHS (gamma eps dx dy dz : ℚ) (lam : EulerState → EulerState → ℚ)
    (field : ℤ → ℤ → ℤ → EulerState) (force : ℤ → ℤ → ℤ → EulerState)
    (i j k : ℤ) : EulerState :=
  fun comp =>
    wenoAxisRHS gamma eps dx lam (fun a => field a j k) i comp
    + wenoAxisRHS gamma eps dy lam (fun a => field i a k) j comp
    + wenoAxisRHS gamma eps dz lam (fun a => field i j a) k comp
    + force i j k comp

/-- `initial_conditions` of src/compile_test.cpp: every cell of the
subdomain receives the uniform fluid state
`rho = 4.0, mx = 0.5, my = 0.3, mz = 0.1, et = 2.0`
(the optional tracer initialisation plays no role in the fluid RHS and is
not modelled). -/
def initial_conditions_compile_test : ℤ → ℤ → ℤ → EulerState :=
  fun _ _ _ => ![4.0, 0.5, 0.3, 0.1, 2.0]

/-- `external_forces` of src/compile_test.cpp: every forcing entry of every
cell is set to `ZERO`. -/
def external_forces_compile_test : ℤ → ℤ → ℤ → EulerState :=
  fun _ _ _ => fun _ => 0

/-! ## Concrete instances used by the witnesses -/

/-- A fully concrete rate-data value: unit tables and scalings, the
temperature-table geometry of `cvklu_setup_data`. -/
def cvkluDataSpot : cvklu_data where
  current_z := 0
  bounds0 := 1
  bounds1 := 100000
  nbins := 1023
  dbin := 1
  idbin := 1
  r_k01 := fun _ => 1
  r_k02 := fun _ => 1
  r_k03 := fun _ => 1
  r_k04 := fun _ => 1
  r_k05 := fun _ => 1
  r_k06 := fun _ => 1
  r_k07 := fun _ => 1
  r_k08 := fun _ => 1
  r_k09 := fun _ => 1
  r_k10 := fun _ => 1
  r_k11 := fun _ => 1
  r_k12 := fun _ => 1
  r_k13 := fun _ => 1
  r_k14 := fun _ => 1
  r_k15 := fun _ => 1
  r_k16 := fun _ => 1
  r_k17 := fun _ => 1
  r_k18 := fun _ => 1
  r_k19 := fun _ => 1
  r_k21 := fun _ => 1
  r_k22 := fun _ => 1
  c_brem_brem := fun _ => 1
  c_ceHeI_ceHeI := fun _ => 1
  c_ceHeII_ceHeII := fun _ => 1
  c_ceHI_ceHI := fun _ => 1
  c_cie_cooling_cieco := fun _ => 1
  c_ciHeI_ciHeI := fun _ => 1
  c_ciHeII_ciHeII := fun _ => 1
  c_ciHeIS_ciHeIS := fun _ => 1
  c_ciHI_ciHI := fun _ => 1
  c_compton_comp_ := fun _ => 1
  c_gloverabel08_gael := fun _ => 1
  c_gloverabel08_gaH2 := fun _ => 1
  c_gloverabel08_gaHe := fun _ => 1
  c_gloverabel08_gaHI := fun _ => 1
  c_gloverabel08_gaHp := fun _ => 1
  c_gloverabel08_h2lte := fun _ => 1
  c_h2formation_h2mcool := fun _ => 1
  c_h2formation_h2mheat := fun _ => 1
  c_h2formation_ncrd1 := fun _ => 1
  c_h2formation_ncrd2 := fun _ => 1
  c_h2formation_ncrn := fun _ => 1
  c_reHeII1_reHeII1 := fun _ => 1
  c_reHeII2_reHeII2 := fun _ => 1
  c_reHeIII_reHeIII := fun _ => 1
  c_reHII_reHII := fun _ => 1
  g_gammaH2_1 := fun _ => 1
  g_dgammaH2_1_dT := fun _ => 1
  g_gammaH2_2 := fun _ => 1
  g_dgammaH2_2_dT := fun _ => 1
  scale := fun _ => 1
  inv_scale := fun _ => 1
  Ts := fun _ => 1000
  dTs_ge := fun _ => 0
  mdensity := fun _ => 1
  inv_mdensity := fun _ => 1
  cie_optical_depth_approx := fun _ => 1
  h2_optical_depth_approx := fun _ => 1

/-- A concrete per-cell state (all unknowns 1). -/
def cellSpot : CellChem where
  H2_1 := 1
  H2_2 := 1
  H_1 := 1
  H_2 := 1
  H_m0 := 1
  He_1 := 1
  He_2 := 1
  He_3 := 1
  de := 1
  ge := 1

/-- The spot data with every `scale` entry replaced by `-1`: this makes the
mixture density computed by `setting_up_extra_variables` negative. -/
def cvkluDataNegScale : cvklu_data :=
  { cvkluDataSpot with scale := fun _ => -1, inv_scale := fun _ => -1 }

/-- The negative-scale data after running `setting_up_extra_variables` on a
one-cell strip (with dummy libm functions, on which the mixture density
does not depend). -/
def cvkluDataNeg : cvklu_data :=
  setting_up_extra_variables (fun _ _ => 0) (fun _ => 0) cvkluDataNegScale 1

/-- A concrete ManyVector (all entries 1). -/
def manyVectorSpot : ManyVector where
  rho := fun _ => 1
  mx := fun _ => 1
  my := fun _ => 1
  mz := fun _ => 1
  et := fun _ => 1
  chem := fun _ => 1

/-- A concrete configuration for the `htrans` check: `t0 = 0`, `tf = 10`,
`nout = 10` (so `dTout = 1`), adaptive stepping, `htrans = 2 ≥ dTout`. -/
def mainConfigSpot : MainConfig where
  t0 := 0
  tf := 10
  nout := 10
  fixedstep := 0
  hmax := 0
  htrans := 2
  nchem := 1

/-- A constant-one stand-in for the external weighted-norm kernel. -/
def wrmsSpot : (ℕ → ℚ) → (ℕ → ℚ) → ℚ := fun _ _ => 1

/-- The all-ones vector. -/
def onesSpot : ℕ → ℚ := fun _ => 1

/-! ## Theorems settling the claims -/

theorem clampQ_mem (lo hi x : ℚ) (h : lo ≤ hi) :
    lo ≤ clampQ lo hi x ∧ clampQ lo hi x ≤ hi := by
  unfold clampQ
  split
  · exact ⟨le_refl lo, h⟩
  · split
    · exact ⟨h, le_refl hi⟩
    · constructor <;> linarith [not_lt.mp (by assumption : ¬ x < lo)]

theorem foldl_min_le_init (xs : List ℤ) (x : ℤ) : xs.foldl min x ≤ x := by
  induction xs generalizing x with
  | nil => exact le_refl x
  | cons y ys ih => exact le_trans (ih (min x y)) (min_le_left x y)

theorem foldl_min_le_of_mem {xs : List ℤ} {e : ℤ} (x : ℤ) (h : e ∈ xs) :
    xs.foldl min x ≤ e := by
  induction xs generalizing x with
  | nil => simp at h
  | cons y ys ih =>
    rcases List.mem_cons.mp h with h1 | h2
    · subst h1
      exact le_trans (foldl_min_le_init ys (min x e)) (min_le_right x e)
    · exact ih (min x y) h2

theorem foldl_min_le {xs : List ℤ} {x e : ℤ} (h : e ∈ x :: xs) :
    xs.foldl min x ≤ e := by
  rcases List.mem_cons.mp h with h1 | h2
  · exact h1 ▸ foldl_min_le_init xs x
  · exact foldl_min_le_of_mem x h2

theorem foldl_min_mem (xs : List ℤ) (x : ℤ) :
    xs.foldl min x ∈ x :: xs := by
  induction xs generalizing x with
  | nil => simp
  | cons y ys ih =>
    have h := ih (min x y)
    rcases List.mem_cons.mp h with h1 | h2
    · rcases min_cases x y with ⟨he, _⟩ | ⟨he, _⟩
      · exact List.mem_cons.mpr (Or.inl (by rw [List.foldl_cons, h1, he]))
      · refine List.mem_cons.mpr (Or.inr ?_)
        exact List.mem_cons.mpr (Or.inl (by rw [List.foldl_cons, h1, he]))
    · refine List.mem_cons.mpr (Or.inr ?_)
      exact List.mem_cons.mpr (Or.inr h2)

theorem le_foldl_max_init (xs : List ℤ) (x : ℤ) : x ≤ xs.foldl max x := by
  induction xs generalizing x with
  | nil => exact le_refl x
  | cons y ys ih => exact le_trans (le_max_left x y) (ih (max x y))

theorem le_foldl_max_of_mem {xs : List ℤ} {e : ℤ} (x : ℤ) (h : e ∈ xs) :
    e ≤ xs.foldl max x := by
  induction xs generalizing x with
  | nil => simp at h
  | cons y ys ih =>
    rcases List.mem_cons.mp h with h1 | h2
    · subst h1
      exact le_trans (le_max_right x e) (le_foldl_max_init ys (max x e))
    · exact ih (max x y) h2

theorem le_foldl_max {xs : List ℤ} {x e : ℤ} (h : e ∈ x :: xs) :
    e ≤ xs.foldl max x := by
  rcases List.mem_cons.mp h with h1 | h2
  · exact h1 ▸ le_foldl_max_init xs x
  · exact le_foldl_max_of_mem x h2

theorem foldl_max_mem (xs : List ℤ) (x : ℤ) :
    xs.foldl max x ∈ x :: xs := by
  induction xs generalizing x with
  | nil => simp
  | cons y ys ih =>
    have h := ih (max x y)
    rcases List.mem_cons.mp h with h1 | h2
    · rcases max_cases x y with ⟨he, _⟩ | ⟨he, _⟩
      · exact List.mem_cons.mpr (Or.inl (by rw [List.foldl_cons, h1, he]))
      · refine List.mem_cons.mpr (Or.inr ?_)
        exact List.mem_cons.mpr (Or.inl (by rw [List.foldl_cons, h1, he]))
    · refine List.mem_cons.mpr (Or.inr ?_)
      exact List.mem_cons.mpr (Or.inr h2)

theorem foldl_min_neg (xs : List ℤ) (x : ℤ) :
    (xs.map (fun e => -e)).foldl min (-x) = -(xs.foldl max x) := by
  induction xs generalizing x with
  | nil => rfl
  | cons y ys ih =>
    have : min (-x) (-y) = -(max x y) := min_neg_neg x y
    simp only [List.map_cons, List.foldl_cons, this]
    exact ih (max x y)

theorem mpiAllreduceMin_mem (xs : List ℤ) (h : xs ≠ []) :
    mpiAllreduceMin xs ∈ xs := by
  cases xs with
  | nil => exact absurd rfl h
  | cons x ys => exact foldl_min_mem ys x

theorem mpiAllreduceMin_le {xs : List ℤ} {e : ℤ} (h : e ∈ xs) :
    mpiAllreduceMin xs ≤ e := by
  cases xs with
  | nil => simp at h
  | cons x ys => exact foldl_min_le h

theorem listMaxInt_mem (xs : List ℤ) (h : xs ≠ []) :
    listMaxInt xs ∈ xs := by
  cases xs with
  | nil => exact absurd rfl h
  | cons x ys => exact foldl_max_mem ys x

theorem le_listMaxInt {xs : List ℤ} {e : ℤ} (h : e ∈ xs) :
    e ≤ listMaxInt xs := by
  cases xs with
  | nil => simp at h
  | cons x ys => exact le_foldl_max h

theorem mpiAllreduceMin_map_neg (xs : List ℤ) :
    mpiAllreduceMin (xs.map (fun e => -e)) = -(listMaxInt xs) := by
  cases xs with
  | nil => rfl
  | cons x ys =>
    show (ys.map (fun e => -e)).foldl min (-x) = -(ys.foldl max x)
    exact foldl_min_neg ys x

/-- C1: for every vector of per-rank local linear-solve status codes, the
return value of `Solve_BDMPIMV` is identical on all ranks; if any rank's
local solve returned a negative (unrecoverable) code, every rank returns the
minimum code over all ranks; if no rank was negative, every rank returns the
maximum (recoverable-failure/success) code; and no rank can report success
(0) while some rank reported a failure (nonzero). -/
theorem Solve_BDMPIMV_globally_consistent
    (ierrs : List ℤ) (h : ierrs ≠ []) (r r' : ℕ) :
    Solve_BDMPIMV r ierrs = Solve_BDMPIMV r' ierrs
    ∧ ((∃ e ∈ ierrs, e < 0) →
        Solve_BDMPIMV r ierrs = mpiAllreduceMin ierrs
        ∧ Solve_BDMPIMV r ierrs ∈ ierrs
        ∧ ∀ e ∈ ierrs, Solve_BDMPIMV r ierrs ≤ e)
    ∧ ((∀ e ∈ ierrs, 0 ≤ e) →
        Solve_BDMPIMV r ierrs = listMaxInt ierrs
        ∧ Solve_BDMPIMV r ierrs ∈ ierrs
        ∧ ∀ e ∈ ierrs, e ≤ Solve_BDMPIMV r ierrs)
    ∧ ((∃ e ∈ ierrs, e ≠ 0) → Solve_BDMPIMV r ierrs ≠ 0) := by
  have hmin_mem := mpiAllreduceMin_mem ierrs h
  have hmax_mem := listMaxInt_mem ierrs h
  refine ⟨rfl, ?_, ?_, ?_⟩
  · rintro ⟨e, he, hneg⟩
    have hm : mpiAllreduceMin ierrs < 0 := lt_of_le_of_lt (mpiAllreduceMin_le he) hneg
    have : Solve_BDMPIMV r ierrs = mpiAllreduceMin ierrs := by
      unfold Solve_BDMPIMV; simp [hm]
    exact ⟨this, this ▸ hmin_mem, fun e' he' => this ▸ mpiAllreduceMin_le he'⟩
  · intro hall
    have hm : ¬ mpiAllreduceMin ierrs < 0 := not_lt.mpr (hall _ hmin_mem)
    have : Solve_BDMPIMV r ierrs = listMaxInt ierrs := by
      unfold Solve_BDMPIMV
      simp only [hm, if_false, mpiAllreduceMin_map_neg, neg_neg]
    exact ⟨this, this ▸ hmax_mem, fun e' he' => this ▸ le_listMaxInt he'⟩
  · rintro ⟨e, he, hne⟩
    rcases lt_or_ge e 0 with hlt | hge
    · have hm : mpiAllreduceMin ierrs < 0 := lt_of_le_of_lt (mpiAllreduceMin_le he) hlt
      have hr : Solve_BDMPIMV r ierrs = mpiAllreduceMin ierrs := by
        unfold Solve_BDMPIMV; simp [hm]
      rw [hr]; exact ne_of_lt hm
    · rcases lt_or_ge (mpiAllreduceMin ierrs) 0 with hm | hm
      · have hr : Solve_BDMPIMV r ierrs = mpiAllreduceMin ierrs := by
          unfold Solve_BDMPIMV; simp [hm]
        rw [hr]; exact ne_of_lt hm
      · have hr : Solve_BDMPIMV r ierrs = listMaxInt ierrs := by
          unfold Solve_BDMPIMV
          simp only [not_lt.mpr hm, if_false, mpiAllreduceMin_map_neg, neg_neg]
        have hpos : 0 < e := lt_of_le_of_ne hge (Ne.symm hne)
        rw [hr]
        exact ne_of_gt (lt_of_lt_of_le hpos (le_listMaxInt he))

/-- Witness for C1: three ranks with local statuses `{-7, 0, 2}` all return
the global minimum `-7`; three ranks with statuses `{0, 1, 3}` all return
the global maximum `3`. -/
theorem Solve_BDMPIMV_globally_consistent_spot :
    ([(-7 : ℤ), 0, 2] ≠ []
      ∧ Solve_BDMPIMV 0 [(-7 : ℤ), 0, 2] = Solve_BDMPIMV 2 [(-7 : ℤ), 0, 2])
    ∧ Solve_BDMPIMV 1 [(-7 : ℤ), 0, 2] = -7
    ∧ Solve_BDMPIMV 1 [(0 : ℤ), 1, 3] = 3 := by
  refine ⟨⟨by decide, ?_⟩, ?_, ?_⟩
  · exact (Solve_BDMPIMV_globally_consistent [(-7 : ℤ), 0, 2] (by decide) 0 2).1
  · have h := (Solve_BDMPIMV_globally_consistent [(-7 : ℤ), 0, 2] (by decide) 1 1).2.1
      ⟨-7, by decide, by decide⟩
    rw [h.1]; decide
  · have h := (Solve_BDMPIMV_globally_consistent [(0 : ℤ), 1, 3] (by decide) 1 1).2.2.1
      (by decide)
    rw [h.1]; decide

theorem cvklu_temperature_loop_eq_iterate (data : cvklu_data) (rlog : ℚ → ℚ)
    (y : CellChem) (n : ℕ) (s : ℚ × ℚ) :
    cvklu_temperature_loop data rlog y n s = (cvklu_newton_step data rlog y)^[n] s := by
  induction n generalizing s with
  | zero => rfl
  | succ m ih =>
    rw [Function.iterate_succ_apply]
    exact ih (cvklu_newton_step data rlog y s)

/-- C3: the per-cell temperature solve is exactly the 10-fold iterate of the
Newton update (which re-interpolates the gamma tables at each iterate) —
the loop can neither exit early nor run longer — followed by clamping into
the table bounds; consequently the returned temperature lies in
`[bounds[0], bounds[1]]`, which `cvklu_setup_data` sets to
`[1.0, 100000.0]`. -/
theorem cvklu_calculate_temperature_ten_iterations_clamped
    (data : cvklu_data) (rlog : ℚ → ℚ) (y : CellChem) (Ts0 : ℚ)
    (hb : data.bounds0 ≤ data.bounds1) :
    (cvklu_calculate_temperature data rlog y Ts0).1
      = clampQ data.bounds0 data.bounds1
          ((cvklu_newton_step data rlog y)^[10] (Ts0, 0)).1
    ∧ data.bounds0 ≤ (cvklu_calculate_temperature data rlog y Ts0).1
    ∧ (cvklu_calculate_temperature data rlog y Ts0).1 ≤ data.bounds1
    ∧ (data.bounds0 = cvklu_setup_bounds0 → data.bounds1 = cvklu_setup_bounds1 →
        1 ≤ (cvklu_calculate_temperature data rlog y Ts0).1
        ∧ (cvklu_calculate_temperature data rlog y Ts0).1 ≤ 100000)
    := by
  have hloop := cvklu_temperature_loop_eq_iterate data rlog y 10 (Ts0, 0)
  have heq : (cvklu_calculate_temperature data rlog y Ts0).1
      = clampQ data.bounds0 data.bounds1
          ((cvklu_newton_step data rlog y)^[10] (Ts0, 0)).1 := by
    unfold cvklu_calculate_temperature clampQ
    rw [hloop]
  have hmem := clampQ_mem data.bounds0 data.bounds1
    ((cvklu_newton_step data rlog y)^[10] (Ts0, 0)).1 hb
  refine ⟨heq, heq ▸ hmem.1, heq ▸ hmem.2, ?_⟩
  intro h0 h1
  have e0 : cvklu_setup_bounds0 = 1 := by norm_num [cvklu_setup_bounds0]
  have e1 : cvklu_setup_bounds1 = 100000 := by norm_num [cvklu_setup_bounds1]
  constructor
  · have := heq ▸ hmem.1
    rw [h0, e0] at this
    exact this
  · have := heq ▸ hmem.2
    rw [h1, e1] at this
    exact this

/-- Witness for C3 at the concrete spot data: the bounds are ordered and the
solved temperature lies between them. -/
theorem cvklu_calculate_temperature_ten_iterations_clamped_spot :
    cvkluDataSpot.bounds0 ≤ cvkluDataSpot.bounds1
    ∧ cvkluDataSpot.bounds0
        ≤ (cvklu_calculate_temperature cvkluDataSpot (fun _ => 0) cellSpot 1000).1
    ∧ (cvklu_calculate_temperature cvkluDataSpot (fun _ => 0) cellSpot 1000).1
        ≤ cvkluDataSpot.bounds1 := by
  have hb : cvkluDataSpot.bounds0 ≤ cvkluDataSpot.bounds1 := by
    show (1 : ℚ) ≤ 100000
    norm_num
  have h := cvklu_calculate_temperature_ten_iterations_clamped cvkluDataSpot
    (fun _ => 0) cellSpot 1000 hb
  exact ⟨hb, h.2.1, h.2.2.1⟩

/-- C4: the rate-table lookup computes the bin index
`(int)(idbin*(log T - log Tmin))` clamped into `[0, nbins-1]` (for
`idbin = 1/dbin` this equals `max 0 (min (nbins-1) ⌊(log T - log Tmin)/dbin⌋)`),
interpolates linearly between entries `bin` and `bin+1`, and is exact at
the table ends: at `log T = log Tmin` it returns `tbl[0]` and at
`log T = log Tmin + nbins*dbin = log Tmax` it returns `tbl[nbins]`, the
last stored entry — no extrapolation beyond the clamped bounds. -/
theorem interp_rate_boundary_exact (tbl : ℤ → ℚ) (nbins : ℤ) (dbin lb logTs : ℚ)
    (hn : 0 < nbins) (hd : 0 < dbin) :
    rate_bin_id nbins (1 / dbin) lb logTs
      = max 0 (min (nbins - 1) ⌊(1 / dbin) * (logTs - lb)⌋)
    ∧ interp_rate tbl nbins dbin (1 / dbin) lb lb = tbl 0
    ∧ interp_rate tbl nbins dbin (1 / dbin) lb (lb + nbins * dbin) = tbl nbins := by
  have hd' : dbin ≠ 0 := ne_of_gt hd
  have heval : ∀ (logT : ℚ) (b : ℤ), rate_bin_id nbins (1 / dbin) lb logT = b →
      interp_rate tbl nbins dbin (1 / dbin) lb logT
        = tbl b + ((logT - (lb + (b : ℚ) * dbin))
            / ((lb + ((b : ℚ) + 1) * dbin) - (lb + (b : ℚ) * dbin)))
          * (tbl (b + 1) - tbl b) := by
    intro logT b hb
    simp only [interp_rate, hb]
  refine ⟨?_, ?_, ?_⟩
  · simp only [rate_bin_id, cIntOfRat]
    rcases le_or_lt 0 ((1 / dbin) * (logTs - lb)) with hx | hx
    · rw [if_pos hx]
      split_ifs <;> omega
    · rw [if_neg (not_le.mpr hx)]
      have h1 : (0 : ℤ) ≤ ⌊-((1 / dbin) * (logTs - lb))⌋ := by
        rw [Int.le_floor]
        push_cast
        linarith
      have h2 : ⌊(1 / dbin) * (logTs - lb)⌋ < 0 := by
        by_contra hcon
        push_neg at hcon
        have hfl := Int.floor_le ((1 / dbin) * (logTs - lb))
        have : (0 : ℚ) ≤ (1 / dbin) * (logTs - lb) :=
          le_trans (by exact_mod_cast hcon) hfl
        linarith
      split_ifs <;> omega
  · have hbin : rate_bin_id nbins (1 / dbin) lb lb = 0 := by
      simp only [rate_bin_id, cIntOfRat]
      have hx : (1 / dbin) * (lb - lb) = 0 := by ring
      rw [hx]
      norm_num
    rw [heval lb 0 hbin]
    norm_num
  · have hcast : (1 / dbin) * ((lb + nbins * dbin) - lb) = (nbins : ℚ) := by
      field_simp
    have hbin : rate_bin_id nbins (1 / dbin) lb (lb + nbins * dbin) = nbins - 1 := by
      simp only [rate_bin_id, cIntOfRat]
      rw [hcast]
      have hge : (0 : ℚ) ≤ (nbins : ℚ) := by exact_mod_cast le_of_lt hn
      rw [if_pos hge, Int.floor_intCast]
      rw [if_neg (by omega), if_pos (by omega)]
    rw [heval (lb + nbins * dbin) (nbins - 1) hbin]
    have hidx : nbins - 1 + 1 = nbins := by ring
    rw [hidx]
    have hN : lb + (nbins : ℚ) * dbin - (lb + ((nbins - 1 : ℤ) : ℚ) * dbin) = dbin := by
      push_cast
      ring
    have hD : lb + (((nbins - 1 : ℤ) : ℚ) + 1) * dbin - (lb + ((nbins - 1 : ℤ) : ℚ) * dbin)
        = dbin := by
      push_cast
      ring
    rw [hN, hD, div_self hd']
    ring

/-- Witness for C4 with a 4-entry table (`nbins = 3`) holding its own
indices, `dbin = 1`, `lb = 0`: the clamped bin of `log T = 7/2` is 2, the
value at the lower bound is `tbl 0 = 0` and the value at the upper bound is
`tbl 3 = 3`. -/
theorem interp_rate_boundary_exact_spot :
    ((0 : ℤ) < 3 ∧ (0 : ℚ) < 1)
    ∧ rate_bin_id 3 (1 / 1) 0 (7 / 2)
        = max 0 (min ((3 : ℤ) - 1) ⌊(1 / (1 : ℚ)) * (7 / 2 - 0)⌋)
    ∧ interp_rate (fun n => (n : ℚ)) 3 1 (1 / 1) 0 0 = (fun n => (n : ℚ)) 0
    ∧ interp_rate (fun n => (n : ℚ)) 3 1 (1 / 1) 0 (0 + 3 * 1)
        = (fun n => (n : ℚ)) 3 := by
  have h := interp_rate_boundary_exact (fun n => (n : ℚ)) 3 1 0 (7 / 2)
    (by decide) (by norm_num)
  exact ⟨⟨by decide, by norm_num⟩, h.1, h.2.1, h.2.2⟩

/-- C2 (amended): `calculate_rhs_cvklu` returns status 0 for every input —
the cell loop performs no validity test whatsoever, so a negative mixture
density is not detected and not propagated to the caller. -/
theorem calculate_rhs_cvklu_status_always_zero (data : cvklu_data)
    (rlog : ℚ → ℚ) (nstrip : ℕ) (ydata : ℕ → ℚ) :
    (calculate_rhs_cvklu data rlog nstrip ydata).2 = 0 := rfl

/-- Counterexample to C2 as stated: with every `scale` entry equal to `-1`,
`setting_up_extra_variables` computes a strictly negative mixture density
for cell 0, and the subsequent `calculate_rhs_cvklu` call nevertheless
returns status 0 (success), not a nonzero recoverable-failure code. -/
theorem calculate_rhs_cvklu_negative_mdensity_returns_zero :
    cvkluDataNeg.mdensity 0 < 0
    ∧ (calculate_rhs_cvklu cvkluDataNeg (fun _ => 0) 1 (fun _ => 1)).2 = 0 := by
  constructor
  · norm_num [cvkluDataNeg, setting_up_extra_variables, cvkluDataNegScale, cvkluDataSpot]
  · rfl

/-- Cancellation of a scale factor against its elementwise inverse. -/
theorem scale_unscale_cancel (a b x : ℚ) (h : a * b = 1) : a * (x * b) = x := by
  calc a * (x * b) = x * (a * b) := by ring
  _ = x * 1 := by rw [h]
  _ = x := mul_one x

theorem calculate_rhs_cvklu_apply (data : cvklu_data) (rlog : ℚ → ℚ)
    (nstrip : ℕ) (ydata : ℕ → ℚ) {n : ℕ} (h : n < nstrip * 10) :
    (calculate_rhs_cvklu data rlog nstrip ydata).1 n
      = cvklu_cell_ydot data rlog ydata (n / 10) (n % 10) := by
  simp only [calculate_rhs_cvklu]
  rw [if_pos h]

/-- C10: the species rates written by `calculate_rhs_cvklu` conserve nuclei
exactly in the physically-scaled variables: multiplying each output entry
back by its `scale` factor, the helium rates sum to zero and the
hydrogen-nuclei combination `2*(H2_1 + H2_2) + H_1 + H_2 + H_m0` of the
rates is zero, identically in the rate coefficients and the state. -/
theorem calculate_rhs_cvklu_conserves_nuclei
    (data : cvklu_data) (rlog : ℚ → ℚ) (nstrip : ℕ) (ydata : ℕ → ℚ)
    (hscale : ∀ j, data.scale j * data.inv_scale j = 1)
    (i : ℕ) (hi : i < nstrip) :
    data.scale (i * 10 + 5) * (calculate_rhs_cvklu data rlog nstrip ydata).1 (i * 10 + 5)
      + data.scale (i * 10 + 6) * (calculate_rhs_cvklu data rlog nstrip ydata).1 (i * 10 + 6)
      + data.scale (i * 10 + 7) * (calculate_rhs_cvklu data rlog nstrip ydata).1 (i * 10 + 7)
      = 0
    ∧ 2 * (data.scale (i * 10) * (calculate_rhs_cvklu data rlog nstrip ydata).1 (i * 10)
        + data.scale (i * 10 + 1) * (calculate_rhs_cvklu data rlog nstrip ydata).1 (i * 10 + 1))
      + data.scale (i * 10 + 2) * (calculate_rhs_cvklu data rlog nstrip ydata).1 (i * 10 + 2)
      + data.scale (i * 10 + 3) * (calculate_rhs_cvklu data rlog nstrip ydata).1 (i * 10 + 3)
      + data.scale (i * 10 + 4) * (calculate_rhs_cvklu data rlog nstrip ydata).1 (i * 10 + 4)
      = 0 := by
  have happ : ∀ s : ℕ, s < 10 →
      (calculate_rhs_cvklu data rlog nstrip ydata).1 (i * 10 + s)
        = cvklu_cell_ydot data rlog ydata i s := by
    intro s hs
    rw [calculate_rhs_cvklu_apply data rlog nstrip ydata (by omega)]
    congr 1
    · omega
    · omega
  have happ0 : (calculate_rhs_cvklu data rlog nstrip ydata).1 (i * 10)
      = cvklu_cell_ydot data rlog ydata i 0 := by
    have := happ 0 (by omega)
    simpa using this
  rw [happ0, happ 1 (by omega), happ 2 (by omega), happ 3 (by omega), happ 4 (by omega),
    happ 5 (by omega), happ 6 (by omega), happ 7 (by omega)]
  have h0 := hscale (i * 10)
  have h1 := hscale (i * 10 + 1)
  have h2 := hscale (i * 10 + 2)
  have h3 := hscale (i * 10 + 3)
  have h4 := hscale (i * 10 + 4)
  have h5 := hscale (i * 10 + 5)
  have h6 := hscale (i * 10 + 6)
  have h7 := hscale (i * 10 + 7)
  simp only [cvklu_cell_ydot]
  rw [scale_unscale_cancel _ _ _ h0, scale_unscale_cancel _ _ _ h1,
    scale_unscale_cancel _ _ _ h2, scale_unscale_cancel _ _ _ h3,
    scale_unscale_cancel _ _ _ h4, scale_unscale_cancel _ _ _ h5,
    scale_unscale_cancel _ _ _ h6, scale_unscale_cancel _ _ _ h7]
  constructor
  · simp only [ydot_He_1, ydot_He_2, ydot_He_3]
    ring
  · simp only [ydot_H2_1, ydot_H2_2, ydot_H_1, ydot_H_2, ydot_H_m0]
    ring

/-- Witness for C10 at the spot data (unit scale factors, one cell). -/
theorem calculate_rhs_cvklu_conserves_nuclei_spot :
    (∀ j, cvkluDataSpot.scale j * cvkluDataSpot.inv_scale j = 1)
    ∧ (0 < 1
      ∧ cvkluDataSpot.scale 5
          * (calculate_rhs_cvklu cvkluDataSpot (fun _ => 0) 1 (fun _ => 1)).1 5
        + cvkluDataSpot.scale 6
          * (calculate_rhs_cvklu cvkluDataSpot (fun _ => 0) 1 (fun _ => 1)).1 6
        + cvkluDataSpot.scale 7
          * (calculate_rhs_cvklu cvkluDataSpot (fun _ => 0) 1 (fun _ => 1)).1 7
        = 0) := by
  have hs : ∀ j, cvkluDataSpot.scale j * cvkluDataSpot.inv_scale j = 1 := by
    intro j
    show (1 : ℚ) * 1 = 1
    norm_num
  have h := calculate_rhs_cvklu_conserves_nuclei cvkluDataSpot (fun _ => 0) 1
    (fun _ => 1) hs 0 (by omega)
  refine ⟨hs, by omega, ?_⟩
  have h1 := h.1
  simpa using h1

/-- C9: whenever `fimpl` returns successfully, the five fluid sub-arrays of
its output are identically zero: the routine zeroes the full output vector
(`N_VConst(ZERO, wdot)`) and then writes only the chemistry sub-vector, so
the implicit RHS never touches the hydrodynamic fields. -/
theorem fimpl_fluid_rates_zero (data : cvklu_data) (rlog : ℚ → ℚ)
    (nstrip : ℕ) (TimeUnits : ℚ) (fchemcur : Option (ℕ → ℚ)) (w : ManyVector)
    (hok : (fimpl data rlog nstrip TimeUnits fchemcur w).2.2 = 0) :
    (∀ n, (fimpl data rlog nstrip TimeUnits fchemcur w).1.rho n = 0)
    ∧ (∀ n, (fimpl data rlog nstrip TimeUnits fchemcur w).1.mx n = 0)
    ∧ (∀ n, (fimpl data rlog nstrip TimeUnits fchemcur w).1.my n = 0)
    ∧ (∀ n, (fimpl data rlog nstrip TimeUnits fchemcur w).1.mz n = 0)
    ∧ (∀ n, (fimpl data rlog nstrip TimeUnits fchemcur w).1.et n = 0) := by
  simp only [fimpl, calculate_rhs_cvklu]
  norm_num

/-- Witness for C9 at the concrete spot data. -/
theorem fimpl_fluid_rates_zero_spot :
    (fimpl cvkluDataSpot (fun _ => 0) 1 1 none manyVectorSpot).2.2 = 0
    ∧ (fimpl cvkluDataSpot (fun _ => 0) 1 1 none manyVectorSpot).1.rho 0 = 0 := by
  have hok : (fimpl cvkluDataSpot (fun _ => 0) 1 1 none manyVectorSpot).2.2 = 0 := rfl
  exact ⟨hok, (fimpl_fluid_rates_zero cvkluDataSpot (fun _ => 0) 1 1 none
    manyVectorSpot hok).1 0⟩

/-- C5: after an `fimpl` call at the current state `w0` cached
`fchemcur = TimeUnits * fchem(y)` (the unperturbed chemistry RHS), the
matrix-free operator with a nonzero error-weighted norm computes
`z = v - gamma*Jv`, where `Jv = (TimeUnits*fchem(y + sig*v) - fchemcur)/sig`
is the divided difference with perturbation `sig = 1/||v||` in the
error-weighted norm; the chemistry RHS is evaluated once, at the perturbed
point only. -/
theorem ATimes_BDMPIMV_divided_difference (data : cvklu_data) (rlog : ℚ → ℚ)
    (nstrip : ℕ) (TimeUnits gamma : ℚ)
    (wrms : (ℕ → ℚ) → (ℕ → ℚ) → ℚ) (y ewt v : ℕ → ℚ)
    (cache0 : ℕ → ℚ) (w0 : ManyVector)
    (hnz : wrms v ewt ≠ 0) :
    (fimpl data rlog nstrip TimeUnits (some cache0) w0).2.1
      = some (fun n => TimeUnits * (calculate_rhs_cvklu data rlog nstrip w0.chem).1 n)
    ∧ (ATimes_BDMPIMV data rlog nstrip TimeUnits gamma wrms y ewt
        (fun n => TimeUnits * (calculate_rhs_cvklu data rlog nstrip w0.chem).1 n) v).1
      = fun n => v n - gamma *
          ((TimeUnits * (calculate_rhs_cvklu data rlog nstrip
              (fun m => y m + (1 / wrms v ewt) * v m)).1 n
            - TimeUnits * (calculate_rhs_cvklu data rlog nstrip w0.chem).1 n)
            / (1 / wrms v ewt)) := by
  constructor
  · simp only [fimpl, calculate_rhs_cvklu]
    norm_num
  · have harg : (fun n => 1 / wrms v ewt * v n + 1 * y n)
        = (fun m => y m + 1 / wrms v ewt * v m) := by
      funext m
      ring
    simp only [ATimes_BDMPIMV]
    rw [harg]
    rw [if_neg (fun hc => hc rfl)]
    dsimp only
    funext n
    have hsig : (1 : ℚ) / wrms v ewt ≠ 0 := one_div_ne_zero hnz
    field_simp
    ring

/-- Witness for C5 with the constant-one weighted norm. -/
theorem ATimes_BDMPIMV_divided_difference_spot :
    (wrmsSpot onesSpot onesSpot ≠ 0)
    ∧ (ATimes_BDMPIMV cvkluDataSpot (fun _ => 0) 1 1 1 wrmsSpot
        onesSpot onesSpot
        (fun n => 1 * (calculate_rhs_cvklu cvkluDataSpot (fun _ => 0) 1
          manyVectorSpot.chem).1 n) onesSpot).1
      = fun n => onesSpot n - 1 *
          ((1 * (calculate_rhs_cvklu cvkluDataSpot (fun _ => 0) 1
              (fun m => onesSpot m + (1 / wrmsSpot onesSpot onesSpot) * onesSpot m)).1 n
            - 1 * (calculate_rhs_cvklu cvkluDataSpot (fun _ => 0) 1
              manyVectorSpot.chem).1 n)
            / (1 / wrmsSpot onesSpot onesSpot)) := by
  have hnz : wrmsSpot onesSpot onesSpot ≠ 0 := by
    show (1 : ℚ) ≠ 0
    norm_num
  have h := ATimes_BDMPIMV_divided_difference cvkluDataSpot (fun _ => 0) 1 1 1
    wrmsSpot onesSpot onesSpot onesSpot onesSpot manyVectorSpot hnz
  exact ⟨hnz, h.2⟩

/-- C6: un-applying the Dengo unit scaling after applying it restores the
original chemistry sub-block exactly, because the element-wise `scale` and
`inv_scale` factors are mutual inverses. -/
theorem Dengo_scaling_round_trip (data : cvklu_data) (wchem : ℕ → ℚ)
    (h : ∀ n, data.scale n * data.inv_scale n = 1) :
    unapply_Dengo_scaling data (apply_Dengo_scaling data wchem) = wchem := by
  funext n
  simp only [unapply_Dengo_scaling, apply_Dengo_scaling]
  calc wchem n * data.scale n * data.inv_scale n
      = wchem n * (data.scale n * data.inv_scale n) := by ring
  _ = wchem n * 1 := by rw [h n]
  _ = wchem n := mul_one _

/-- Witness for C6 at the spot data (unit scale factors). -/
theorem Dengo_scaling_round_trip_spot :
    (∀ n, cvkluDataSpot.scale n * cvkluDataSpot.inv_scale n = 1)
    ∧ unapply_Dengo_scaling cvkluDataSpot
        (apply_Dengo_scaling cvkluDataSpot (fun n : ℕ => (n : ℚ) + 3))
      = fun n : ℕ => (n : ℚ) + 3 := by
  have hs : ∀ n, cvkluDataSpot.scale n * cvkluDataSpot.inv_scale n = 1 := by
    intro n
    show (1 : ℚ) * 1 = 1
    norm_num
  exact ⟨hs, Dengo_scaling_round_trip cvkluDataSpot (fun n : ℕ => (n : ℚ) + 3) hs⟩

/-- C7: when `htrans ≥ dTout = (tf - t0)/nout`, the pre-integration checks
of `main` abort the whole run (the model returns `some` reason, standing
for `MPI_Abort` before `ARKStepCreate` is ever reached, so integration
never starts); when `htrans < dTout`, this check passes. -/
theorem main_htrans_check (cfg : MainConfig) (hn : 0 < cfg.nout) :
    (cfg.htrans ≥ (cfg.tf - cfg.t0) / (cfg.nout : ℚ)
      → (main_config_check cfg).isSome = true)
    ∧ (cfg.htrans < (cfg.tf - cfg.t0) / (cfg.nout : ℚ)
      → main_config_check cfg ≠ some AbortReason.htransGEdTout) := by
  have hdT : main_dTout cfg = (cfg.tf - cfg.t0) / (cfg.nout : ℚ) := by
    unfold main_dTout
    rw [if_neg (by omega)]
  constructor
  · intro h
    unfold main_config_check
    split_ifs with hfix hht
    · rfl
    · rfl
    · exact absurd (hdT ▸ h) hht
    · exact absurd (hdT ▸ h) hht
  · intro h
    unfold main_config_check
    split_ifs with hfix hht
    · intro hcon
      exact AbortReason.noConfusion (Option.some.inj hcon)
    · rw [hdT] at hht
      exact absurd hht (not_le.mpr h)
    · intro hcon
      exact AbortReason.noConfusion (Option.some.inj hcon)
    · exact Option.noConfusion

/-- Witness for C7: the spot configuration has `dTout = 1` and
`htrans = 2 ≥ 1`, so the checks abort. -/
theorem main_htrans_check_spot :
    (0 < mainConfigSpot.nout
      ∧ mainConfigSpot.htrans
          ≥ (mainConfigSpot.tf - mainConfigSpot.t0) / (mainConfigSpot.nout : ℚ))
    ∧ (main_config_check mainConfigSpot).isSome = true := by
  have hn : (0 : ℤ) < mainConfigSpot.nout := by decide
  have hge : mainConfigSpot.htrans
      ≥ (mainConfigSpot.tf - mainConfigSpot.t0) / (mainConfigSpot.nout : ℚ) := by
    show (2 : ℚ) ≥ (10 - 0) / ((10 : ℤ) : ℚ)
    norm_num
  exact ⟨⟨hn, hge⟩, (main_htrans_check mainConfigSpot hn).1 hge⟩

/-- Consistency of the WENO5 reconstruction: on a constant stencil every
sub-stencil reconstructs the constant, all smoothness indicators vanish,
and the normalised Jiang-Shu weights sum to one, so the reconstructed
interface value is the constant itself. -/
theorem weno5_face_const (eps c : ℚ) (h : 0 < eps) :
    weno5_face eps c c c c c = c := by
  have he : eps ≠ 0 := ne_of_gt h
  simp only [weno5_face]
  rw [show c - 2 * c + c = (0 : ℚ) by ring]
  rw [show c - 4 * c + 3 * c = (0 : ℚ) by ring]
  rw [show c - c = (0 : ℚ) by ring]
  rw [show 3 * c - 4 * c + c = (0 : ℚ) by ring]
  norm_num
  field_simp
  ring

/-- C8: for the uniform state set by `initial_conditions` of
src/compile_test.cpp (`rho = 4.0`, `m = (0.5, 0.3, 0.1)`, `et = 2.0` in
every cell) and the identically zero forcing of its `external_forces`, the
spec-modelled WENO flux RHS is exactly zero at every cell, for every mesh
spacing, `gamma`, `eps` and wave-speed estimate: the reconstructed
interface states and hence the numerical fluxes on the two faces of each
axis coincide, so the flux divergence telescopes to zero.  (Cells are
indexed over `ℤ`, so every modelled cell has the full halo an interior
cell of an arbitrary grid has.) -/
theorem wenoRHS_zero_on_uniform_compile_test_state
    (gamma eps dx dy dz : ℚ) (lam : EulerState → EulerState → ℚ) (i j k : ℤ) :
    wenoRHS gamma eps dx dy dz lam initial_conditions_compile_test
      external_forces_compile_test i j k = fun _ => 0 := by
  funext comp
  simp only [wenoRHS, wenoAxisRHS, wenoInterfaceFlux, rusanovFlux,
    initial_conditions_compile_test, external_forces_compile_test]
  ring
